import Mathlib

/-!
Verification of the real-time room fan-out layer of the cybev-mobile server
(`src/server.js`, the `io.on('connection')` handler block) and of the User
model's `toJSON` serialization (`models/user.model.js`).

The Socket.IO room machinery is modelled explicitly: a server state holds the
set of connected socket ids, the (socket, room) membership pairs, a log of
delivered outbound events (in emission order), and the console log.  The
per-socket event handlers of `server.js` are translated one by one into
`handleEvent`.  JavaScript parameter destructuring of a `null`/`undefined`
payload throws a `TypeError`, which we model as `Except.error`; a missing
field of an object payload destructures to `undefined`, which interpolates
into a template literal as the string `"undefined"` (`interpField`).
-/

namespace Cybev

abbrev ConnId := String
abbrev RoomId := String

/-- An outbound (server → client) event, as emitted by the handlers in
`server.js`.  Fields that come out of a JavaScript destructuring pattern are
`Option`-valued: `none` models the JavaScript value `undefined`. -/
inductive OutEvent where
  | userTyping (userId : Option String) (isTyping : Option Bool)
  | viewerJoined (socketId : String)
  | viewerLeft (socketId : String)
  | chatMessage (message : Option String)
  | reaction (emoji : Option String) (userId : Option String)
deriving DecidableEq, Repr

/-- One delivery of an outbound event to one recipient connection. -/
structure Delivery where
  rcpt : ConnId
  ev : OutEvent
deriving DecidableEq, Repr

/-- The state of the Socket.IO layer: connected socket ids, the
room-membership pairs (a socket `c` is in room `r` iff `(c, r)` is in the
list; joins append, so per-room member order is join order), the log of all
deliveries made so far (in emission order), and the console log. -/
structure ServerState where
  connected : List ConnId
  membership : List (ConnId × RoomId)
  deliveries : List Delivery
  log : List String
deriving DecidableEq, Repr

/-- The members of a room, in join order (Socket.IO keeps a set of socket ids
per room; we read it off the membership pairs). -/
def roomMembers (st : ServerState) (room : RoomId) : List ConnId :=
  (st.membership.filter (fun p => decide (p.2 = room))).map (fun p => p.1)

/-- `socket.join(room)`: adds the socket to the room's member set.  Socket.IO
rooms are sets, so joining a room the socket is already in is a no-op. -/
def joinRoom (st : ServerState) (c : ConnId) (room : RoomId) : ServerState :=
  if (c, room) ∈ st.membership then st
  else { st with membership := st.membership ++ [(c, room)] }

/-- `socket.leave(room)`: removes the socket from the room's member set. -/
def leaveRoom (st : ServerState) (c : ConnId) (room : RoomId) : ServerState :=
  { st with membership := st.membership.filter (fun p => decide (p ≠ (c, room))) }

/-- The list of deliveries produced by fanning `ev` out to the connections
`l`, in member order. -/
def sendToAll (l : List ConnId) (ev : OutEvent) : List Delivery :=
  l.map (fun c => Delivery.mk c ev)

/-- The list of deliveries produced by fanning `ev` out to the connections
`l` minus the sender. -/
def sendToAllExcept (l : List ConnId) (sender : ConnId) (ev : OutEvent) : List Delivery :=
  sendToAll (l.filter (fun c => decide (c ≠ sender))) ev

/-- `io.to(room).emit(ev)`: delivers `ev` to every member of `room`,
the sender included when it is a member. -/
def emitToRoom (st : ServerState) (room : RoomId) (ev : OutEvent) : ServerState :=
  { st with deliveries := st.deliveries ++ sendToAll (roomMembers st room) ev }

/-- `socket.to(room).emit(ev)`: delivers `ev` to every member of `room`
except the sending socket. -/
def emitToRoomExcept (st : ServerState) (sender : ConnId) (room : RoomId)
    (ev : OutEvent) : ServerState :=
  { st with deliveries :=
      st.deliveries ++ sendToAllExcept (roomMembers st room) sender ev }

/-- Payload of the `typing` client event, `{ conversationId, userId, isTyping }`.
Each field is `Option`-valued: a missing field destructures to `undefined`. -/
structure TypingPayload where
  conversationId : Option String
  userId : Option String
  isTyping : Option Bool
deriving DecidableEq, Repr

/-- Payload of the `stream-chat` client event, `{ streamId, message }`. -/
structure StreamChatPayload where
  streamId : Option String
  message : Option String
deriving DecidableEq, Repr

/-- Payload of the `stream-reaction` client event, `{ streamId, emoji, userId }`. -/
structure StreamReactionPayload where
  streamId : Option String
  emoji : Option String
  userId : Option String
deriving DecidableEq, Repr

/-- The inbound (client → server) events handled in `io.on('connection')`.
Events whose handler destructures an object parameter carry an
`Option`-wrapped payload: `none` models a `null`/`undefined` payload, on
which JavaScript destructuring throws. -/
inductive ClientEvent where
  | join (userId : String)
  | joinConversation (conversationId : String)
  | leaveConversation (conversationId : String)
  | typing (payload : Option TypingPayload)
  | joinStream (streamId : String)
  | leaveStream (streamId : String)
  | streamChat (payload : Option StreamChatPayload)
  | streamReaction (payload : Option StreamReactionPayload)
  | disconnect
deriving DecidableEq, Repr

/-- Interpolation of a possibly-`undefined` field into a template literal:
the JavaScript value `undefined` prints as the string `"undefined"`. -/
def interpField (x : Option String) : String :=
  match x with
  | some s => s
  | none => "undefined"

/-- The event dispatcher: one case per `socket.on(...)` handler registered in
`io.on('connection')` of `src/server.js`.  `sender` is `socket.id`.
`Except.error` models a JavaScript `TypeError` thrown by destructuring a
`null`/`undefined` payload; no handler performs any membership or
registration check. -/
def handleEvent (st : ServerState) (sender : ConnId) :
    ClientEvent → Except String ServerState
  | ClientEvent.join userId =>
      let st1 := joinRoom st sender ("user:" ++ userId)
      Except.ok { st1 with log := st1.log ++ ["User " ++ userId ++ " joined their room"] }
  | ClientEvent.joinConversation conversationId =>
      Except.ok (joinRoom st sender ("conversation:" ++ conversationId))
  | ClientEvent.leaveConversation conversationId =>
      Except.ok (leaveRoom st sender ("conversation:" ++ conversationId))
  | ClientEvent.typing none =>
      Except.error "TypeError: cannot destructure a null or undefined payload"
  | ClientEvent.typing (some p) =>
      Except.ok (emitToRoomExcept st sender
        ("conversation:" ++ interpField p.conversationId)
        (OutEvent.userTyping p.userId p.isTyping))
  | ClientEvent.joinStream streamId =>
      let st1 := joinRoom st sender ("stream:" ++ streamId)
      Except.ok (emitToRoomExcept st1 sender ("stream:" ++ streamId)
        (OutEvent.viewerJoined sender))
  | ClientEvent.leaveStream streamId =>
      let st1 := leaveRoom st sender ("stream:" ++ streamId)
      Except.ok (emitToRoomExcept st1 sender ("stream:" ++ streamId)
        (OutEvent.viewerLeft sender))
  | ClientEvent.streamChat none =>
      Except.error "TypeError: cannot destructure a null or undefined payload"
  | ClientEvent.streamChat (some p) =>
      Except.ok (emitToRoom st ("stream:" ++ interpField p.streamId)
        (OutEvent.chatMessage p.message))
  | ClientEvent.streamReaction none =>
      Except.error "TypeError: cannot destructure a null or undefined payload"
  | ClientEvent.streamReaction (some p) =>
      Except.ok (emitToRoom st ("stream:" ++ interpField p.streamId)
        (OutEvent.reaction p.emoji p.userId))
  | ClientEvent.disconnect =>
      Except.ok { st with
        connected := st.connected.filter (fun c => decide (c ≠ sender)),
        membership := st.membership.filter (fun p => decide (p.1 ≠ sender)),
        log := st.log ++ ["User disconnected: " ++ sender] }

/-- The outbound events delivered to connection `c` so far, in delivery
order. -/
def eventsTo (st : ServerState) (c : ConnId) : List OutEvent :=
  (st.deliveries.filter (fun d => decide (d.rcpt = c))).map (fun d => d.ev)

/-- A JavaScript value, as far as `userSchema.methods.toJSON` of
`models/user.model.js` inspects one.  An object is a list of key/value
fields (JavaScript object keys are unique; order is insertion order). -/
inductive JVal where
  | jnull
  | jundef
  | jbool (b : Bool)
  | jnum (n : Int)
  | jstr (s : String)
  | jarr (xs : List JVal)
  | jobj (fields : List (String × JVal))
deriving Repr

/-- JavaScript truthiness, as used by `if (obj.oauthProfile)` and
`if (obj.oauthProfile[provider])`. -/
def truthy : JVal → Bool
  | JVal.jnull => false
  | JVal.jundef => false
  | JVal.jbool b => b
  | JVal.jnum n => decide (n ≠ 0)
  | JVal.jstr s => decide (s ≠ "")
  | JVal.jarr _ => true
  | JVal.jobj _ => true

/-- `delete obj.k`: removes the field `k` from an object's field list. -/
def deleteKey (fields : List (String × JVal)) (k : String) : List (String × JVal) :=
  fields.filter (fun p => decide (p.1 ≠ k))

/-- Property read `obj.k`: the value of the first field named `k`, or
`undefined` when absent. -/
def getKey (fields : List (String × JVal)) (k : String) : JVal :=
  match fields.find? (fun p => p.1 == k) with
  | some p => p.2
  | none => JVal.jundef

/-- The loop body of `toJSON` over one provider entry of `obj.oauthProfile`:
`if (obj.oauthProfile[provider]) { delete ...accessToken; ...refreshToken;
...accessSecret; }`.  Deleting a property of a non-object primitive is a
silent no-op in (non-strict) JavaScript. -/
def scrubProvider (v : JVal) : JVal :=
  if truthy v then
    match v with
    | JVal.jobj f =>
        JVal.jobj (deleteKey (deleteKey (deleteKey f "accessToken") "refreshToken") "accessSecret")
    | other => other
  else v

/-- The `Object.keys(obj.oauthProfile).forEach(...)` loop of `toJSON`:
scrubs the token fields of every (truthy) provider entry. -/
def scrubOauthProfile : JVal → JVal
  | JVal.jobj providers =>
      JVal.jobj (providers.map (fun p => (p.1, scrubProvider p.2)))
  | other => other

/-- The five `delete obj.<field>` statements at the start of `toJSON`, in
source order. -/
def deleteSensitive (obj : List (String × JVal)) : List (String × JVal) :=
  deleteKey (deleteKey (deleteKey (deleteKey (deleteKey obj
    "password") "resetPasswordToken") "emailVerificationToken")
    "twoFactorSecret") "backupCodes"

/-- `userSchema.methods.toJSON` of `models/user.model.js`, acting on the
plain object returned by `this.toObject()`: deletes the five sensitive
top-level fields, then, when `obj.oauthProfile` is truthy, strips the OAuth
token fields from every provider entry. -/
def userToJSON (obj : List (String × JVal)) : List (String × JVal) :=
  if truthy (getKey (deleteSensitive obj) "oauthProfile") then
    (deleteSensitive obj).map
      (fun p => if p.1 == "oauthProfile" then (p.1, scrubOauthProfile p.2) else p)
  else deleteSensitive obj

/-! ### Basic lemmas about the fan-out primitives -/

theorem mem_sendToAll {l : List ConnId} {c : ConnId} (ev : OutEvent) (hc : c ∈ l) :
    Delivery.mk c ev ∈ sendToAll l ev :=
  List.mem_map_of_mem _ hc

theorem mem_sendToAllExcept {l : List ConnId} {c sender : ConnId} (ev : OutEvent)
    (hc : c ∈ l) (hne : c ≠ sender) :
    Delivery.mk c ev ∈ sendToAllExcept l sender ev := by
  refine List.mem_map_of_mem _ (List.mem_filter.mpr ⟨hc, ?_⟩)
  simpa using hne

theorem sendToAllExcept_rcpt_ne {l : List ConnId} {sender : ConnId} {ev : OutEvent} :
    ∀ d ∈ sendToAllExcept l sender ev, d.rcpt ≠ sender := by
  intro d hd
  simp only [sendToAllExcept, sendToAll, List.mem_map, List.mem_filter] at hd
  obtain ⟨c, ⟨_, hne⟩, rfl⟩ := hd
  simpa using hne

/-- C1: a `stream-chat {streamId, message}` event from a connected sender is
handled by `io.to('stream:'+streamId).emit('chat-message', message)`: the
message is delivered verbatim to every member of the room, with the sender
not excluded — in particular a sender alone in the room receives its own
echo. -/
theorem streamChat_echoed_to_every_member
    (st : ServerState) (sender : ConnId) (s : String) (m : Option String)
    (_hconn : sender ∈ st.connected)
    (c : ConnId) (hc : c ∈ roomMembers st ("stream:" ++ s)) :
    handleEvent st sender (ClientEvent.streamChat (some ⟨some s, m⟩)) =
      Except.ok (emitToRoom st ("stream:" ++ s) (OutEvent.chatMessage m)) ∧
    Delivery.mk c (OutEvent.chatMessage m) ∈
      (emitToRoom st ("stream:" ++ s) (OutEvent.chatMessage m)).deliveries := by
  refine ⟨rfl, ?_⟩
  simp only [emitToRoom, List.mem_append]
  exact Or.inr (mem_sendToAll _ hc)

/-- C1 witness: sender `X` alone in room `stream:s1` sends
`stream-chat {streamId: s1, message: hi}` and receives its own echo. -/
theorem streamChat_echoed_to_every_member_witness :
    "X" ∈ (ServerState.mk ["X"] [("X", "stream:s1")] [] []).connected ∧
    "X" ∈ roomMembers (ServerState.mk ["X"] [("X", "stream:s1")] [] []) ("stream:" ++ "s1") ∧
    (handleEvent (ServerState.mk ["X"] [("X", "stream:s1")] [] []) "X"
        (ClientEvent.streamChat (some ⟨some "s1", some "hi"⟩)) =
      Except.ok (emitToRoom (ServerState.mk ["X"] [("X", "stream:s1")] [] [])
        ("stream:" ++ "s1") (OutEvent.chatMessage (some "hi"))) ∧
    Delivery.mk "X" (OutEvent.chatMessage (some "hi")) ∈
      (emitToRoom (ServerState.mk ["X"] [("X", "stream:s1")] [] [])
        ("stream:" ++ "s1") (OutEvent.chatMessage (some "hi"))).deliveries) :=
  ⟨by decide, by decide,
    streamChat_echoed_to_every_member (ServerState.mk ["X"] [("X", "stream:s1")] [] [])
      "X" "s1" (some "hi") (by decide) "X" (by decide)⟩

/-- C2: a `typing {conversationId, userId, isTyping}` event is broadcast via
`socket.to('conversation:'+conversationId)`: a `user-typing {userId, isTyping}`
delivery goes to every member of the conversation room other than the sender,
and no delivery of the broadcast goes to the sender itself. -/
theorem typing_excludes_sender
    (st : ServerState) (sender : ConnId) (cid : String)
    (u : Option String) (t : Option Bool) :
    handleEvent st sender (ClientEvent.typing (some ⟨some cid, u, t⟩)) =
      Except.ok (emitToRoomExcept st sender ("conversation:" ++ cid)
        (OutEvent.userTyping u t)) ∧
    (emitToRoomExcept st sender ("conversation:" ++ cid)
        (OutEvent.userTyping u t)).deliveries =
      st.deliveries ++
        sendToAllExcept (roomMembers st ("conversation:" ++ cid)) sender
          (OutEvent.userTyping u t) ∧
    (∀ c ∈ roomMembers st ("conversation:" ++ cid), c ≠ sender →
      Delivery.mk c (OutEvent.userTyping u t) ∈
        sendToAllExcept (roomMembers st ("conversation:" ++ cid)) sender
          (OutEvent.userTyping u t)) ∧
    (∀ d ∈ sendToAllExcept (roomMembers st ("conversation:" ++ cid)) sender
        (OutEvent.userTyping u t), d.rcpt ≠ sender) := by
  refine ⟨rfl, rfl, ?_, sendToAllExcept_rcpt_ne⟩
  intro c hc hne
  exact mem_sendToAllExcept _ hc hne

/-- C2 witness: in room `conversation:c1` with members `A`, `B`, `C`, a
typing event from `A` is delivered to `B` and not delivered to `A`. -/
theorem typing_excludes_sender_witness :
    handleEvent
        (ServerState.mk ["A", "B", "C"]
          [("A", "conversation:c1"), ("B", "conversation:c1"), ("C", "conversation:c1")] [] [])
        "A" (ClientEvent.typing (some ⟨some "c1", some "u1", some true⟩)) =
      Except.ok (emitToRoomExcept
        (ServerState.mk ["A", "B", "C"]
          [("A", "conversation:c1"), ("B", "conversation:c1"), ("C", "conversation:c1")] [] [])
        "A" ("conversation:" ++ "c1") (OutEvent.userTyping (some "u1") (some true))) ∧
    Delivery.mk "B" (OutEvent.userTyping (some "u1") (some true)) ∈
      sendToAllExcept
        (roomMembers (ServerState.mk ["A", "B", "C"]
          [("A", "conversation:c1"), ("B", "conversation:c1"), ("C", "conversation:c1")] [] [])
          ("conversation:" ++ "c1")) "A" (OutEvent.userTyping (some "u1") (some true)) ∧
    Delivery.mk "A" (OutEvent.userTyping (some "u1") (some true)) ∉
      sendToAllExcept
        (roomMembers (ServerState.mk ["A", "B", "C"]
          [("A", "conversation:c1"), ("B", "conversation:c1"), ("C", "conversation:c1")] [] [])
          ("conversation:" ++ "c1")) "A" (OutEvent.userTyping (some "u1") (some true)) := by
  have h := typing_excludes_sender
    (ServerState.mk ["A", "B", "C"]
      [("A", "conversation:c1"), ("B", "conversation:c1"), ("C", "conversation:c1")] [] [])
    "A" "c1" (some "u1") (some true)
  exact ⟨h.1, h.2.2.1 "B" (by decide) (by decide),
    fun hmem => (h.2.2.2 _ hmem) rfl⟩

theorem mem_roomMembers {st : ServerState} {x : ConnId} {r : RoomId} :
    x ∈ roomMembers st r ↔ (x, r) ∈ st.membership := by
  constructor
  · intro hx
    simp only [roomMembers, List.mem_map, List.mem_filter] at hx
    obtain ⟨⟨a, b⟩, ⟨hmem, hb⟩, ha⟩ := hx
    simp only [decide_eq_true_eq] at hb
    subst ha
    subst hb
    exact hmem
  · intro hmem
    simp only [roomMembers, List.mem_map, List.mem_filter]
    exact ⟨(x, r), ⟨hmem, by simp⟩, rfl⟩

theorem roomMembers_joinRoom_mono {st : ServerState} {x c : ConnId} {room : RoomId}
    (hx : x ∈ roomMembers st room) : x ∈ roomMembers (joinRoom st c room) room := by
  unfold joinRoom
  split
  · exact hx
  · simp only [roomMembers, List.filter_append, List.map_append]
    exact List.mem_append_left _ hx

theorem joinRoom_self_mem (st : ServerState) (c : ConnId) (room : RoomId) :
    (c, room) ∈ (joinRoom st c room).membership := by
  unfold joinRoom
  split
  · assumption
  · simp

/-- C3: a `join-stream(streamId)` from connection `X` adds `X` to room
`stream:streamId`, then `socket.to(room).emit('viewer-joined', {socketId})`
delivers a `viewer-joined` event carrying `X`'s socket id to every member
already present in the room, while no delivery of that broadcast goes to `X`
itself. -/
theorem joinStream_notifies_existing_members
    (st : ServerState) (sender : ConnId) (s : String)
    (c : ConnId) (hc : c ∈ roomMembers st ("stream:" ++ s)) (hne : c ≠ sender) :
    handleEvent st sender (ClientEvent.joinStream s) =
      Except.ok (emitToRoomExcept (joinRoom st sender ("stream:" ++ s)) sender
        ("stream:" ++ s) (OutEvent.viewerJoined sender)) ∧
    (sender, "stream:" ++ s) ∈
      (emitToRoomExcept (joinRoom st sender ("stream:" ++ s)) sender
        ("stream:" ++ s) (OutEvent.viewerJoined sender)).membership ∧
    Delivery.mk c (OutEvent.viewerJoined sender) ∈
      (emitToRoomExcept (joinRoom st sender ("stream:" ++ s)) sender
        ("stream:" ++ s) (OutEvent.viewerJoined sender)).deliveries ∧
    (∀ d ∈ sendToAllExcept (roomMembers (joinRoom st sender ("stream:" ++ s))
        ("stream:" ++ s)) sender (OutEvent.viewerJoined sender), d.rcpt ≠ sender) := by
  refine ⟨rfl, joinRoom_self_mem st sender _, ?_, sendToAllExcept_rcpt_ne⟩
  simp only [emitToRoomExcept, List.mem_append]
  exact Or.inr (mem_sendToAllExcept _ (roomMembers_joinRoom_mono hc) hne)

/-- C3 witness: `Y` is already in `stream:s1`; `X` sends `join-stream(s1)`;
`X` becomes a member, `Y` receives `viewer-joined {socketId: X}`, and the
broadcast delivers nothing to `X`. -/
theorem joinStream_notifies_existing_members_witness :
    handleEvent (ServerState.mk ["X", "Y"] [("Y", "stream:s1")] [] []) "X"
        (ClientEvent.joinStream "s1") =
      Except.ok (emitToRoomExcept
        (joinRoom (ServerState.mk ["X", "Y"] [("Y", "stream:s1")] [] []) "X" ("stream:" ++ "s1"))
        "X" ("stream:" ++ "s1") (OutEvent.viewerJoined "X")) ∧
    ("X", "stream:" ++ "s1") ∈
      (emitToRoomExcept
        (joinRoom (ServerState.mk ["X", "Y"] [("Y", "stream:s1")] [] []) "X" ("stream:" ++ "s1"))
        "X" ("stream:" ++ "s1") (OutEvent.viewerJoined "X")).membership ∧
    Delivery.mk "Y" (OutEvent.viewerJoined "X") ∈
      (emitToRoomExcept
        (joinRoom (ServerState.mk ["X", "Y"] [("Y", "stream:s1")] [] []) "X" ("stream:" ++ "s1"))
        "X" ("stream:" ++ "s1") (OutEvent.viewerJoined "X")).deliveries ∧
    Delivery.mk "X" (OutEvent.viewerJoined "X") ∉
      sendToAllExcept
        (roomMembers
          (joinRoom (ServerState.mk ["X", "Y"] [("Y", "stream:s1")] [] []) "X" ("stream:" ++ "s1"))
          ("stream:" ++ "s1")) "X" (OutEvent.viewerJoined "X") := by
  have h := joinStream_notifies_existing_members
    (ServerState.mk ["X", "Y"] [("Y", "stream:s1")] [] []) "X" "s1" "Y"
    (by decide) (by decide)
  exact ⟨h.1, h.2.1, h.2.2.1, fun hmem => (h.2.2.2 _ hmem) rfl⟩

theorem eventsTo_append (st : ServerState) (L : List Delivery) (c : ConnId) :
    eventsTo { st with deliveries := st.deliveries ++ L } c =
      eventsTo st c ++ (L.filter (fun d => decide (d.rcpt = c))).map (fun d => d.ev) := by
  simp [eventsTo, List.filter_append]

theorem eventsTo_emitToRoom (st : ServerState) (r : RoomId) (ev : OutEvent) (c : ConnId) :
    eventsTo (emitToRoom st r ev) c =
      eventsTo st c ++
        (((sendToAll (roomMembers st r) ev).filter (fun d => decide (d.rcpt = c))).map
          (fun d => d.ev)) :=
  eventsTo_append st _ c

theorem eventsTo_emitToRoomExcept (st : ServerState) (sender : ConnId) (r : RoomId)
    (ev : OutEvent) (c : ConnId) :
    eventsTo (emitToRoomExcept st sender r ev) c =
      eventsTo st c ++
        (((sendToAllExcept (roomMembers st r) sender ev).filter
          (fun d => decide (d.rcpt = c))).map (fun d => d.ev)) :=
  eventsTo_append st _ c

theorem filter_sendToAll_not_mem {l : List ConnId} {x : ConnId} (ev : OutEvent)
    (hx : x ∉ l) :
    (sendToAll l ev).filter (fun d => decide (d.rcpt = x)) = [] := by
  rw [List.filter_eq_nil_iff]
  intro d hd
  simp only [sendToAll, List.mem_map] at hd
  obtain ⟨a, ha, rfl⟩ := hd
  simp only [decide_eq_true_eq]
  intro hax
  exact hx (hax ▸ ha)

theorem filter_sendToAllExcept_not_mem {l : List ConnId} {x sender : ConnId}
    (ev : OutEvent) (hx : x ∉ l) :
    (sendToAllExcept l sender ev).filter (fun d => decide (d.rcpt = x)) = [] := by
  unfold sendToAllExcept
  exact filter_sendToAll_not_mem ev (fun hmem => hx (List.mem_filter.mp hmem).1)

/-- C4: processing the `disconnect` event for connection `X` (the handler of
`server.js` plus Socket.IO's own room cleanup for a disconnected socket)
removes `X` from every room it had joined; any broadcast to any room issued
on the resulting state delivers nothing to `X`; and processing `disconnect`
again is not an error and leaves the connection, membership and delivery
state unchanged. -/
theorem disconnect_removes_all_memberships
    (st : ServerState) (x : ConnId) (st' : ServerState)
    (h : handleEvent st x ClientEvent.disconnect = Except.ok st') :
    (∀ r, (x, r) ∉ st'.membership) ∧
    (∀ r, x ∉ roomMembers st' r) ∧
    (∀ r ev, eventsTo (emitToRoom st' r ev) x = eventsTo st' x) ∧
    (∀ r sender2 ev, eventsTo (emitToRoomExcept st' sender2 r ev) x = eventsTo st' x) ∧
    (∃ st'', handleEvent st' x ClientEvent.disconnect = Except.ok st'' ∧
      st''.connected = st'.connected ∧ st''.membership = st'.membership ∧
      st''.deliveries = st'.deliveries) := by
  have hst' := Except.ok.inj h
  subst hst'
  have hnm : ∀ r, (x, r) ∉ (st.membership.filter (fun p => decide (p.1 ≠ x))) := by
    intro r hmem
    have := (List.mem_filter.mp hmem).2
    simp at this
  refine ⟨hnm, ?_, ?_, ?_, ?_⟩
  · intro r hx
    exact hnm r (mem_roomMembers.mp hx)
  · intro r ev
    rw [eventsTo_emitToRoom,
      filter_sendToAll_not_mem ev (fun hx => hnm r (mem_roomMembers.mp hx))]
    simp
  · intro r sender2 ev
    rw [eventsTo_emitToRoomExcept,
      filter_sendToAllExcept_not_mem ev (fun hx => hnm r (mem_roomMembers.mp hx))]
    simp
  · refine ⟨_, rfl, ?_, ?_, rfl⟩
    · show (st.connected.filter _).filter _ = st.connected.filter _
      rw [List.filter_filter]
      simp
    · show (st.membership.filter _).filter _ = st.membership.filter _
      rw [List.filter_filter]
      simp

/-- C4 witness: `X` joined `user:u1` and `conversation:c1`; after its
disconnect both memberships are gone, a broadcast into `conversation:c1`
delivers nothing to `X`, and a second disconnect succeeds without changing
the tracking state. -/
theorem disconnect_removes_all_memberships_witness :
    ("X", "user:u1") ∉
      (ServerState.mk [] [] [] ["User disconnected: X"]).membership ∧
    ("X", "conversation:c1") ∉
      (ServerState.mk [] [] [] ["User disconnected: X"]).membership ∧
    eventsTo (emitToRoom (ServerState.mk [] [] [] ["User disconnected: X"])
        "conversation:c1" (OutEvent.chatMessage (some "m"))) "X" =
      eventsTo (ServerState.mk [] [] [] ["User disconnected: X"]) "X" ∧
    (∃ st'', handleEvent (ServerState.mk [] [] [] ["User disconnected: X"]) "X"
        ClientEvent.disconnect = Except.ok st'' ∧
      st''.connected = (ServerState.mk [] [] [] ["User disconnected: X"]).connected ∧
      st''.membership = (ServerState.mk [] [] [] ["User disconnected: X"]).membership ∧
      st''.deliveries = (ServerState.mk [] [] [] ["User disconnected: X"]).deliveries) := by
  have h := disconnect_removes_all_memberships
    (ServerState.mk ["X"] [("X", "user:u1"), ("X", "conversation:c1")] [] [])
    "X" (ServerState.mk [] [] [] ["User disconnected: X"]) rfl
  exact ⟨h.1 "user:u1", h.1 "conversation:c1",
    h.2.2.1 "conversation:c1" (OutEvent.chatMessage (some "m")), h.2.2.2.2⟩

/-- C5: the `typing`, `stream-chat` and `stream-reaction` handlers perform no
sender-membership check: a connected sender that is a member of neither
`stream:streamId` nor `conversation:conversationId` still triggers the very
same broadcasts into those rooms, delivering to whatever members they have. -/
theorem broadcasts_need_no_sender_membership
    (st : ServerState) (sender : ConnId) (s cid : String)
    (m e u : Option String) (t : Option Bool)
    (_hconn : sender ∈ st.connected)
    (_hs : sender ∉ roomMembers st ("stream:" ++ s))
    (_hc : sender ∉ roomMembers st ("conversation:" ++ cid)) :
    handleEvent st sender (ClientEvent.streamChat (some ⟨some s, m⟩)) =
      Except.ok (emitToRoom st ("stream:" ++ s) (OutEvent.chatMessage m)) ∧
    handleEvent st sender (ClientEvent.streamReaction (some ⟨some s, e, u⟩)) =
      Except.ok (emitToRoom st ("stream:" ++ s) (OutEvent.reaction e u)) ∧
    handleEvent st sender (ClientEvent.typing (some ⟨some cid, u, t⟩)) =
      Except.ok (emitToRoomExcept st sender ("conversation:" ++ cid)
        (OutEvent.userTyping u t)) ∧
    (∀ c ∈ roomMembers st ("stream:" ++ s),
      Delivery.mk c (OutEvent.chatMessage m) ∈
        (emitToRoom st ("stream:" ++ s) (OutEvent.chatMessage m)).deliveries) := by
  refine ⟨rfl, rfl, rfl, ?_⟩
  intro c hc'
  simp only [emitToRoom, List.mem_append]
  exact Or.inr (mem_sendToAll _ hc')

/-- C5 witness: sender `S` is connected but not in room `stream:s1`; its
`stream-chat` is still fanned out and member `B` of that room receives it. -/
theorem broadcasts_need_no_sender_membership_witness :
    handleEvent (ServerState.mk ["S", "B"] [("B", "stream:s1")] [] []) "S"
        (ClientEvent.streamChat (some ⟨some "s1", some "pw"⟩)) =
      Except.ok (emitToRoom (ServerState.mk ["S", "B"] [("B", "stream:s1")] [] [])
        ("stream:" ++ "s1") (OutEvent.chatMessage (some "pw"))) ∧
    Delivery.mk "B" (OutEvent.chatMessage (some "pw")) ∈
      (emitToRoom (ServerState.mk ["S", "B"] [("B", "stream:s1")] [] [])
        ("stream:" ++ "s1") (OutEvent.chatMessage (some "pw"))).deliveries := by
  have h := broadcasts_need_no_sender_membership
    (ServerState.mk ["S", "B"] [("B", "stream:s1")] [] []) "S" "s1" "c1"
    (some "pw") none none none (by decide) (by decide) (by decide)
  exact ⟨h.1, h.2.2.2 "B" (by decide)⟩

/-- C6 counterexample: the sender id `ghost` is in no connection registry at
all (the connected set is empty), yet its `join-conversation` is handled with
no raised error and no log line: it silently succeeds, adding the membership
pair.  This refutes the claim that such an operation fails loudly. -/
theorem join_unknown_connection_silently_succeeds :
    "ghost" ∉ (ServerState.mk [] [] [] []).connected ∧
    handleEvent (ServerState.mk [] [] [] []) "ghost"
        (ClientEvent.joinConversation "c1") =
      Except.ok (ServerState.mk [] [("ghost", "conversation:c1")] [] []) ∧
    handleEvent (ServerState.mk [] [("ghost", "conversation:c1")] [] []) "ghost"
        (ClientEvent.leaveConversation "c1") =
      Except.ok (ServerState.mk [] [] [] []) :=
  ⟨by decide, rfl, rfl⟩

/-- C6 amended: the `join-conversation` and `leave-conversation` handlers
perform no registration check and never raise or log — for any sender,
registered or not, they silently update the room membership; and broadcasting
into a room with no members is a silent no-op that leaves the state
unchanged. -/
theorem join_leave_unchecked_and_empty_broadcast_noop
    (st : ServerState) (sender : ConnId) (cid : String) :
    handleEvent st sender (ClientEvent.joinConversation cid) =
      Except.ok (joinRoom st sender ("conversation:" ++ cid)) ∧
    (joinRoom st sender ("conversation:" ++ cid)).log = st.log ∧
    handleEvent st sender (ClientEvent.leaveConversation cid) =
      Except.ok (leaveRoom st sender ("conversation:" ++ cid)) ∧
    (leaveRoom st sender ("conversation:" ++ cid)).log = st.log ∧
    (∀ room ev, roomMembers st room = [] → emitToRoom st room ev = st) := by
  refine ⟨rfl, ?_, rfl, rfl, ?_⟩
  · unfold joinRoom
    split <;> rfl
  · intro room ev h
    simp [emitToRoom, sendToAll, h]

/-- C6 witness: for the registered connection `A`, join succeeds with no log
line, and a broadcast into the empty room `conversation:zzz` is a no-op. -/
theorem join_leave_unchecked_and_empty_broadcast_noop_witness :
    handleEvent (ServerState.mk ["A"] [] [] []) "A"
        (ClientEvent.joinConversation "c1") =
      Except.ok (joinRoom (ServerState.mk ["A"] [] [] []) "A" ("conversation:" ++ "c1")) ∧
    (joinRoom (ServerState.mk ["A"] [] [] []) "A" ("conversation:" ++ "c1")).log =
      (ServerState.mk ["A"] [] [] [] : ServerState).log ∧
    emitToRoom (ServerState.mk ["A"] [] [] []) "conversation:zzz"
        (OutEvent.chatMessage none) =
      ServerState.mk ["A"] [] [] [] := by
  have h := join_leave_unchecked_and_empty_broadcast_noop
    (ServerState.mk ["A"] [] [] []) "A" "c1"
  exact ⟨h.1, h.2.1, h.2.2.2.2 "conversation:zzz" (OutEvent.chatMessage none) (by decide)⟩

/-- C7 counterexample: a `typing` event whose payload is missing the required
`conversationId` field is not dropped and produces no logged warning: the
handler runs to completion, interpolates `undefined` into the room name, and
delivers `user-typing` to `bob`, a member of room `conversation:undefined`. -/
theorem malformed_typing_event_not_dropped :
    handleEvent (ServerState.mk ["X", "bob"] [("bob", "conversation:undefined")] [] [])
        "X" (ClientEvent.typing (some ⟨none, some "u1", some true⟩)) =
      Except.ok (ServerState.mk ["X", "bob"] [("bob", "conversation:undefined")]
        [Delivery.mk "bob" (OutEvent.userTyping (some "u1") (some true))] []) :=
  rfl

/-- C7 amended: the dispatcher performs no payload validation.  An object
payload with a missing required field is processed anyway, the missing field
interpolating into the room name as the string `undefined`; a
`null`/`undefined` payload where an object is expected makes the handler's
parameter destructuring throw a `TypeError` instead of being dropped with a
warning. -/
theorem malformed_payload_not_validated
    (st : ServerState) (sender : ConnId) (u : Option String) (t : Option Bool) :
    handleEvent st sender (ClientEvent.typing (some ⟨none, u, t⟩)) =
      Except.ok (emitToRoomExcept st sender "conversation:undefined"
        (OutEvent.userTyping u t)) ∧
    handleEvent st sender (ClientEvent.typing none) =
      Except.error "TypeError: cannot destructure a null or undefined payload" ∧
    handleEvent st sender (ClientEvent.streamChat none) =
      Except.error "TypeError: cannot destructure a null or undefined payload" ∧
    handleEvent st sender (ClientEvent.streamReaction none) =
      Except.error "TypeError: cannot destructure a null or undefined payload" := by
  refine ⟨?_, rfl, rfl, rfl⟩
  have hroom : ("conversation:" ++ interpField none : String) = "conversation:undefined" := by
    decide
  show Except.ok (emitToRoomExcept st sender ("conversation:" ++ interpField none)
    (OutEvent.userTyping u t)) = _
  rw [hroom]

theorem filter_sendToAll_count (l : List ConnId) (c : ConnId) (ev : OutEvent) :
    (sendToAll l ev).filter (fun d => decide (d.rcpt = c)) =
      List.replicate (l.count c) (Delivery.mk c ev) := by
  induction l with
  | nil => rfl
  | cons a l ih =>
    simp only [sendToAll, List.map_cons, List.filter_cons] at *
    by_cases hac : a = c
    · subst hac
      simp [List.count_cons, ih, List.replicate_succ]
    · simp [List.count_cons, ih, hac, Ne.symm hac]

theorem count_filter_ne_sender (l : List ConnId) (sender c : ConnId) (hcs : c ≠ sender) :
    (l.filter (fun x => decide (x ≠ sender))).count c = l.count c :=
  List.count_filter (by simpa using hcs)

theorem filter_sendToAllExcept_count (l : List ConnId) (sender c : ConnId)
    (ev : OutEvent) (hcs : c ≠ sender) :
    (sendToAllExcept l sender ev).filter (fun d => decide (d.rcpt = c)) =
      List.replicate (l.count c) (Delivery.mk c ev) := by
  unfold sendToAllExcept
  rw [filter_sendToAll_count, count_filter_ne_sender _ _ _ hcs]

/-- C8: two sequential `typing` broadcasts into the same conversation room
are observed by a recipient `c` — a member of the room throughout (counted
exactly once, Socket.IO rooms being sets) and distinct from the sender — in
the order they were issued: the stream of events delivered to `c` grows by
exactly `[first, second]`. -/
theorem typing_fifo_per_recipient
    (st : ServerState) (sender c : ConnId) (cid : String)
    (u1 u2 : Option String) (t1 t2 : Option Bool)
    (hcount : (roomMembers st ("conversation:" ++ cid)).count c = 1)
    (hcs : c ≠ sender)
    (st1 st2 : ServerState)
    (h1 : handleEvent st sender (ClientEvent.typing (some ⟨some cid, u1, t1⟩)) =
      Except.ok st1)
    (h2 : handleEvent st1 sender (ClientEvent.typing (some ⟨some cid, u2, t2⟩)) =
      Except.ok st2) :
    eventsTo st2 c =
      eventsTo st c ++ [OutEvent.userTyping u1 t1, OutEvent.userTyping u2 t2] := by
  have e1 : emitToRoomExcept st sender ("conversation:" ++ cid)
      (OutEvent.userTyping u1 t1) = st1 := Except.ok.inj h1
  have e2 : emitToRoomExcept st1 sender ("conversation:" ++ cid)
      (OutEvent.userTyping u2 t2) = st2 := Except.ok.inj h2
  subst e1
  subst e2
  have hmem1 : (roomMembers (emitToRoomExcept st sender ("conversation:" ++ cid)
      (OutEvent.userTyping u1 t1)) ("conversation:" ++ cid)).count c = 1 := hcount
  rw [eventsTo_emitToRoomExcept, eventsTo_emitToRoomExcept,
    filter_sendToAllExcept_count _ _ _ _ hcs,
    filter_sendToAllExcept_count _ _ _ _ hcs, hcount, hmem1]
  simp

/-- C8 witness: with `B` the sole member of `conversation:c1` and sender `A`,
two typing events arrive at `B` in issue order. -/
theorem typing_fifo_per_recipient_witness :
    eventsTo (ServerState.mk ["A", "B"] [("B", "conversation:c1")]
        [Delivery.mk "B" (OutEvent.userTyping (some "u1") (some true)),
         Delivery.mk "B" (OutEvent.userTyping (some "u1") (some false))] []) "B" =
      eventsTo (ServerState.mk ["A", "B"] [("B", "conversation:c1")] [] []) "B" ++
        [OutEvent.userTyping (some "u1") (some true),
         OutEvent.userTyping (some "u1") (some false)] :=
  typing_fifo_per_recipient
    (ServerState.mk ["A", "B"] [("B", "conversation:c1")] [] []) "A" "B" "c1"
    (some "u1") (some "u1") (some true) (some false) (by decide) (by decide)
    (ServerState.mk ["A", "B"] [("B", "conversation:c1")]
      [Delivery.mk "B" (OutEvent.userTyping (some "u1") (some true))] [])
    (ServerState.mk ["A", "B"] [("B", "conversation:c1")]
      [Delivery.mk "B" (OutEvent.userTyping (some "u1") (some true)),
       Delivery.mk "B" (OutEvent.userTyping (some "u1") (some false))] [])
    rfl rfl

theorem leaveRoom_idem (st : ServerState) (x : ConnId) (room : RoomId) :
    leaveRoom (leaveRoom st x room) x room = leaveRoom st x room := by
  unfold leaveRoom
  rw [List.filter_filter]
  simp

theorem joinRoom_idem (st : ServerState) (x : ConnId) (room : RoomId) :
    joinRoom (joinRoom st x room) x room = joinRoom st x room := by
  show (if (x, room) ∈ (joinRoom st x room).membership then joinRoom st x room
    else { joinRoom st x room with
      membership := (joinRoom st x room).membership ++ [(x, room)] }) =
    joinRoom st x room
  rw [if_pos (joinRoom_self_mem st x room)]

/-- C9: the `join-conversation` and `leave-conversation` handlers are
idempotent — handling the same event twice in immediate succession leaves
the server state (membership included) exactly as handling it once. -/
theorem join_leave_conversation_idempotent
    (st : ServerState) (x : ConnId) (cid : String) :
    handleEvent st x (ClientEvent.leaveConversation cid) =
      Except.ok (leaveRoom st x ("conversation:" ++ cid)) ∧
    handleEvent (leaveRoom st x ("conversation:" ++ cid)) x
        (ClientEvent.leaveConversation cid) =
      Except.ok (leaveRoom st x ("conversation:" ++ cid)) ∧
    handleEvent st x (ClientEvent.joinConversation cid) =
      Except.ok (joinRoom st x ("conversation:" ++ cid)) ∧
    handleEvent (joinRoom st x ("conversation:" ++ cid)) x
        (ClientEvent.joinConversation cid) =
      Except.ok (joinRoom st x ("conversation:" ++ cid)) := by
  refine ⟨rfl, ?_, rfl, ?_⟩
  · show Except.ok (leaveRoom (leaveRoom st x _) x _) = _
    rw [leaveRoom_idem]
  · show Except.ok (joinRoom (joinRoom st x _) x _) = _
    rw [joinRoom_idem]

theorem mem_deleteKey {fields : List (String × JVal)} {k : String} {p : String × JVal} :
    p ∈ deleteKey fields k ↔ p ∈ fields ∧ p.1 ≠ k := by
  simp [deleteKey, List.mem_filter]

theorem nodup_keys_deleteKey {fields : List (String × JVal)} {k : String}
    (h : (fields.map Prod.fst).Nodup) : ((deleteKey fields k).map Prod.fst).Nodup :=
  List.Nodup.sublist (List.Sublist.map _ (List.filter_sublist _)) h

theorem deleteSensitive_key_ne {obj : List (String × JVal)} {p : String × JVal}
    (hp : p ∈ deleteSensitive obj) :
    p ∈ obj ∧ p.1 ≠ "password" ∧ p.1 ≠ "resetPasswordToken" ∧
    p.1 ≠ "emailVerificationToken" ∧ p.1 ≠ "twoFactorSecret" ∧ p.1 ≠ "backupCodes" := by
  unfold deleteSensitive at hp
  have h5 := mem_deleteKey.mp hp
  have h4 := mem_deleteKey.mp h5.1
  have h3 := mem_deleteKey.mp h4.1
  have h2 := mem_deleteKey.mp h3.1
  have h1 := mem_deleteKey.mp h2.1
  exact ⟨h1.1, h1.2, h2.2, h3.2, h4.2, h5.2⟩

theorem nodup_keys_deleteSensitive {obj : List (String × JVal)}
    (h : (obj.map Prod.fst).Nodup) : ((deleteSensitive obj).map Prod.fst).Nodup := by
  unfold deleteSensitive
  exact nodup_keys_deleteKey (nodup_keys_deleteKey (nodup_keys_deleteKey
    (nodup_keys_deleteKey (nodup_keys_deleteKey h))))

theorem getKey_of_mem_nodup {fields : List (String × JVal)}
    (hn : (fields.map Prod.fst).Nodup) {p : String × JVal} (hp : p ∈ fields) :
    getKey fields p.1 = p.2 := by
  induction fields with
  | nil => cases hp
  | cons q rest ih =>
    rw [List.map_cons, List.nodup_cons] at hn
    rcases List.mem_cons.mp hp with h | h
    · subst h
      simp [getKey]
    · have hne : (q.1 == p.1) = false := by
        rw [beq_eq_false_iff_ne]
        intro he
        exact hn.1 (he ▸ List.mem_map_of_mem Prod.fst h)
      unfold getKey
      rw [List.find?_cons_of_neg _ (by simp [hne])]
      exact ih hn.2 h

theorem scrubProvider_no_tokens (w : JVal) (f : List (String × JVal))
    (h : scrubProvider w = JVal.jobj f) :
    ∀ r ∈ f, r.1 ≠ "accessToken" ∧ r.1 ≠ "refreshToken" ∧ r.1 ≠ "accessSecret" := by
  cases w with
  | jobj g =>
    simp only [scrubProvider, truthy, if_true] at h
    injection h with h
    subst h
    intro r hr
    have h3 := mem_deleteKey.mp hr
    have h2 := mem_deleteKey.mp h3.1
    have h1 := mem_deleteKey.mp h2.1
    exact ⟨h1.2, h2.2, h3.2⟩
  | jnull => simp [scrubProvider, truthy] at h
  | jundef => simp [scrubProvider, truthy] at h
  | jbool b =>
    unfold scrubProvider at h
    split at h <;> simp at h
  | jnum n =>
    unfold scrubProvider at h
    split at h <;> simp at h
  | jstr s =>
    unfold scrubProvider at h
    split at h <;> simp at h
  | jarr xs =>
    unfold scrubProvider at h
    split at h <;> simp at h

theorem scrubOauthProfile_no_tokens (v : JVal) (ps : List (String × JVal))
    (h : scrubOauthProfile v = JVal.jobj ps) :
    ∀ q ∈ ps, ∀ f, q.2 = JVal.jobj f →
      ∀ r ∈ f, r.1 ≠ "accessToken" ∧ r.1 ≠ "refreshToken" ∧ r.1 ≠ "accessSecret" := by
  cases v with
  | jobj ps0 =>
    unfold scrubOauthProfile at h
    injection h with h
    subst h
    intro q hq f hf r hr
    obtain ⟨p0, _, rfl⟩ := List.mem_map.mp hq
    exact scrubProvider_no_tokens p0.2 f hf r hr
  | jnull => simp [scrubOauthProfile] at h
  | jundef => simp [scrubOauthProfile] at h
  | jbool b => simp [scrubOauthProfile] at h
  | jnum n => simp [scrubOauthProfile] at h
  | jstr s => simp [scrubOauthProfile] at h
  | jarr xs => simp [scrubOauthProfile] at h

/-- C10: for a user document (a JavaScript object with unique keys), the
object produced by `toJSON` contains no `password`, `resetPasswordToken`,
`emailVerificationToken`, `twoFactorSecret` or `backupCodes` field, and
every provider entry of its `oauthProfile` object contains no `accessToken`,
`refreshToken` or `accessSecret` field. -/
theorem userToJSON_hides_sensitive_fields
    (obj : List (String × JVal)) (hnodup : (obj.map Prod.fst).Nodup) :
    (∀ p ∈ userToJSON obj,
      p.1 ≠ "password" ∧ p.1 ≠ "resetPasswordToken" ∧
      p.1 ≠ "emailVerificationToken" ∧ p.1 ≠ "twoFactorSecret" ∧
      p.1 ≠ "backupCodes") ∧
    (∀ p ∈ userToJSON obj, p.1 = "oauthProfile" → ∀ ps, p.2 = JVal.jobj ps →
      ∀ q ∈ ps, ∀ f, q.2 = JVal.jobj f →
        ∀ r ∈ f, r.1 ≠ "accessToken" ∧ r.1 ≠ "refreshToken" ∧
          r.1 ≠ "accessSecret") := by
  constructor
  · intro p hp
    unfold userToJSON at hp
    split at hp
    · obtain ⟨q, hq, heq⟩ := List.mem_map.mp hp
      have hfst : p.1 = q.1 := by
        rw [← heq]
        split <;> rfl
      rw [hfst]
      exact (deleteSensitive_key_ne hq).2
    · exact (deleteSensitive_key_ne hp).2
  · intro p hp hk ps hps q hq f hf r hr
    unfold userToJSON at hp
    split at hp
    · obtain ⟨q0, hq0, heq⟩ := List.mem_map.mp hp
      by_cases hb : (q0.1 == "oauthProfile") = true
      · rw [if_pos hb] at heq
        have hsnd : p.2 = scrubOauthProfile q0.2 := by rw [← heq]
        rw [hps] at hsnd
        exact scrubOauthProfile_no_tokens q0.2 ps hsnd.symm q hq f hf r hr
      · rw [if_neg hb] at heq
        rw [heq, hk] at hb
        simp at hb
    · rename_i hcond
      exfalso
      apply hcond
      have hget := getKey_of_mem_nodup (nodup_keys_deleteSensitive hnodup) hp
      rw [hk, hps] at hget
      rw [hget]
      rfl

/-- C10 witness: a concrete user object carrying all five sensitive fields
and a google OAuth profile with all three token fields; `toJSON` keeps the
`name` entry (whose key is none of the sensitive keys) and the google
provider's `id` entry (whose key is none of the token keys). -/
theorem userToJSON_hides_sensitive_fields_witness :
    (([("name", JVal.jstr "Prince"), ("password", JVal.jstr "pw"),
       ("resetPasswordToken", JVal.jstr "r1"),
       ("emailVerificationToken", JVal.jstr "e1"),
       ("twoFactorSecret", JVal.jstr "t1"),
       ("backupCodes", JVal.jarr [JVal.jstr "b1"]),
       ("oauthProfile", JVal.jobj [("google", JVal.jobj
         [("id", JVal.jstr "g1"), ("accessToken", JVal.jstr "at"),
          ("refreshToken", JVal.jstr "rt"), ("accessSecret", JVal.jstr "as")])])] :
      List (String × JVal)).map Prod.fst).Nodup ∧
    (("name" : String) ≠ "password" ∧ ("name" : String) ≠ "resetPasswordToken" ∧
      ("name" : String) ≠ "emailVerificationToken" ∧
      ("name" : String) ≠ "twoFactorSecret" ∧ ("name" : String) ≠ "backupCodes") ∧
    (("id" : String) ≠ "accessToken" ∧ ("id" : String) ≠ "refreshToken" ∧
      ("id" : String) ≠ "accessSecret") := by
  have h := userToJSON_hides_sensitive_fields
    [("name", JVal.jstr "Prince"), ("password", JVal.jstr "pw"),
     ("resetPasswordToken", JVal.jstr "r1"),
     ("emailVerificationToken", JVal.jstr "e1"),
     ("twoFactorSecret", JVal.jstr "t1"),
     ("backupCodes", JVal.jarr [JVal.jstr "b1"]),
     ("oauthProfile", JVal.jobj [("google", JVal.jobj
       [("id", JVal.jstr "g1"), ("accessToken", JVal.jstr "at"),
        ("refreshToken", JVal.jstr "rt"), ("accessSecret", JVal.jstr "as")])])]
    (by decide)
  refine ⟨by decide, h.1 ("name", JVal.jstr "Prince") (List.Mem.head _), ?_⟩
  exact h.2 ("oauthProfile", JVal.jobj [("google", JVal.jobj [("id", JVal.jstr "g1")])])
    (List.Mem.tail _ (List.Mem.head _)) rfl
    [("google", JVal.jobj [("id", JVal.jstr "g1")])] rfl
    ("google", JVal.jobj [("id", JVal.jstr "g1")]) (List.Mem.head _)
    [("id", JVal.jstr "g1")] rfl
    ("id", JVal.jstr "g1") (List.Mem.head _)

end Cybev
